import Mathlib

/-!
Verification of the shift-scheduling engine (App/controllers/scheduling).

The Python source is shallowly embedded: datetimes become minute counts,
the in-place mutation of staff/shift objects becomes explicit state passing
on `SchedState` keyed by ids, Python exceptions become `Except`/explicit
error sums, and the SQLAlchemy session becomes a small `Db` state with
pending/committed rows.  The preference lookup (an external collaborator)
is a function parameter `Prefs`.
-/

/-- Python `datetime`, at minute resolution: minutes since an epoch that
falls on weekday 0. -/
structure PyDateTime where
  minutes : Nat
deriving DecidableEq, Repr

/-- `datetime.hour`. -/
def PyDateTime.hour (t : PyDateTime) : Nat := t.minutes / 60 % 24

/-- `datetime.weekday()` (0..6). -/
def PyDateTime.weekday (t : PyDateTime) : Nat := t.minutes / 1440 % 7

/-- `datetime.combine(date, datetime.min.time())` for a date given as a day
number. -/
def dateAtMidnight (d : Nat) : PyDateTime := ⟨d * 1440⟩

/-- `datetime.replace(hour=h)`: keeps day and minute, fails (Python
`ValueError`) unless `h ≤ 23`. -/
def replaceHour (t : PyDateTime) (h : Nat) : Except String PyDateTime :=
  if h ≤ 23 then .ok ⟨t.minutes / 1440 * 1440 + h * 60 + t.minutes % 60⟩
  else .error "hour must be in 0..23"

/-- `datetime.replace(hour=h, minute=m)`. -/
def replaceHourMinute (t : PyDateTime) (h m : Nat) : Except String PyDateTime :=
  if h ≤ 23 ∧ m ≤ 59 then .ok ⟨t.minutes / 1440 * 1440 + h * 60 + m⟩
  else .error "hour must be in 0..23"

/-- The preference record returned by `get_preferences`; the defaults are
the fallback dictionary used by both strategies. -/
structure PrefRecord where
  preferred_shift_types : List String := []
  unavailable_days : List Nat := []
  max_hours_per_week : ℚ := 40
  skills : List String := []
deriving DecidableEq, Repr

/-- The external preference lookup: `None` models an absent record. -/
def Prefs : Type := Nat → Option PrefRecord

/-- Effective record after `get_preferences(id) or {...defaults...}`. -/
def prefsOf (P : Prefs) (pid : Nat) : PrefRecord := (P pid).getD {}

/-- A staff member: identifier plus the mutable assignment state
(`total_hours`, `assigned_shifts` as a list of shift ids in assignment
order). -/
structure Staff where
  id : Nat
  total_hours : ℚ := 0
  assigned_shifts : List Nat := []
deriving DecidableEq, Repr

/-- A shift: identifier, optional start/end (a missing attribute in Python
is `none`), capacity, skills, fallback duration, type tag, and the mutable
`assigned_staff` list of staff ids. -/
structure Shift where
  id : Nat
  start? : Option PyDateTime := none
  end? : Option PyDateTime := none
  required_staff : Nat := 1
  required_skills : List String := []
  duration_hours? : Option ℚ := none
  shift_type : String := ""
  assigned_staff : List Nat := []
deriving DecidableEq, Repr

/-- The caller-owned staff/shift object graph, mutated in place by a
strategy run. -/
structure SchedState where
  staff : List Staff
  shifts : List Shift
deriving DecidableEq, Repr

def findStaff (σ : SchedState) (pid : Nat) : Option Staff :=
  σ.staff.find? (fun p => p.id == pid)

def findShift (σ : SchedState) (sid : Nat) : Option Shift :=
  σ.shifts.find? (fun s => s.id == sid)

/-- `getattr(person, 'total_hours', 0)` read through the state. -/
def totalHoursOf (σ : SchedState) (pid : Nat) : ℚ :=
  ((findStaff σ pid).map (·.total_hours)).getD 0

/-- Mutate the staff object with identifier `pid` in place. -/
def updStaff (pid : Nat) (f : Staff → Staff) (σ : SchedState) : SchedState :=
  { σ with staff := σ.staff.map (fun p => if p.id = pid then f p else p) }

/-- Mutate the shift object with identifier `sid` in place. -/
def updShift (sid : Nat) (f : Shift → Shift) (σ : SchedState) : SchedState :=
  { σ with shifts := σ.shifts.map (fun s => if s.id = sid then f s else s) }

/-- Shift duration in hours: `(end - start).total_seconds()/3600` when both
timestamps exist, else `getattr(shift, 'duration_hours', 8)`.  Shared by
`_get_shift_duration` (DayNight) and `_assign_shift` (PreferenceBased). -/
def shift_duration (sh : Shift) : ℚ :=
  match sh.start?, sh.end? with
  | some a, some b => ((b.minutes : ℚ) - (a.minutes : ℚ)) / 60
  | _, _ => sh.duration_hours?.getD 8

/-- `_assign_shift(staff, shift)`: append to both sides and add the
duration to `total_hours` (identical in both strategy files). -/
def assign_shift (σ : SchedState) (pid sid : Nat) : SchedState :=
  let dur := ((findShift σ sid).map shift_duration).getD 8
  let σ1 := updShift sid (fun s => { s with assigned_staff := s.assigned_staff ++ [pid] }) σ
  updStaff pid (fun p =>
    { p with assigned_shifts := p.assigned_shifts ++ [sid],
             total_hours := p.total_hours + dur }) σ1

/-- Modelled from the spec: `SchedulingStrategy._reset_assignments` (the
base class `SchedulingStrategy.py` is not in the reviewed sources); §4.1:
zero every staff member's `total_hours`, clear `assigned_shifts` and every
shift's `assigned_staff`. -/
def reset_assignments (σ : SchedState) : SchedState :=
  ⟨σ.staff.map (fun p => { p with total_hours := 0, assigned_shifts := [] }),
   σ.shifts.map (fun s => { s with assigned_staff := [] })⟩

/-- Stable insertion into a sorted list: the new element goes before the
first element it compares `le` to, so equal keys keep original order. -/
def insertLe {α : Type} (le : α → α → Bool) (x : α) : List α → List α
  | [] => [x]
  | y :: ys => if le x y then x :: y :: ys else y :: insertLe le x ys

/-- Stable sort (models Python's stable `sorted`/`list.sort`). -/
def sortLe {α : Type} (le : α → α → Bool) (l : List α) : List α :=
  l.foldr (insertLe le) []

/-- Aggregate statistics of one generation pass.  The four numeric fields
are the keys read by `_validate_schedule_results`; the optional fields are
the extras `DayNightDistributeStrategy` adds with `summary.update`. -/
structure Summary where
  min_hours : ℚ := 0
  max_hours : ℚ := 0
  average_hours_per_staff : ℚ := 0
  total_shifts_assigned : Nat := 0
  staff_with_shifts : Nat := 0
  day_staff_count? : Option Nat := none
  night_staff_count? : Option Nat := none
  day_shifts_assigned? : Option Nat := none
  night_shifts_assigned? : Option Nat := none
deriving DecidableEq, Repr

/-- Modelled from the spec: `SchedulingStrategy._generate_summary` (base
class absent from the sources); §4.1 and §3: min/average/max `total_hours`
across the roster, count of staff with ≥ 1 assigned shift, and the total
number of committed (staff, shift) assignments; an empty roster yields an
empty summary (`none`). -/
def generate_summary (staffL : List Staff) : Option Summary :=
  match staffL with
  | [] => none
  | p :: rest =>
    some { min_hours := rest.foldl (fun a q => min a q.total_hours) p.total_hours,
           max_hours := rest.foldl (fun a q => max a q.total_hours) p.total_hours,
           average_hours_per_staff :=
             ((p :: rest).map (·.total_hours)).sum / ((p :: rest).length : ℚ),
           total_shifts_assigned := ((p :: rest).map (·.assigned_shifts.length)).sum,
           staff_with_shifts := ((p :: rest).filter (fun q => !q.assigned_shifts.isEmpty)).length }

/-- Modelled from the spec: `SchedulingStrategy._format_schedule` (base
class absent from the sources); §4.1: a serializable per-shift listing of
times and assigned staff identifiers. -/
def format_schedule (shifts : List Shift) : List (Option PyDateTime × Option PyDateTime × List Nat) :=
  shifts.map (fun s => (s.start?, s.end?, s.assigned_staff))

/-- A strategy's returned dictionary.  Optional fields model keys that a
given strategy may not put in the dict (neither strategy sets `score`,
which is why `auto_populate`'s `result.get('score', 0)` is always 0). -/
structure ScheduleResult where
  strategy : String
  schedule : List (Option PyDateTime × Option PyDateTime × List Nat)
  summary : Option Summary
  score? : Option ℚ := none
  preference_score? : Option ℚ := none
  distribution_score? : Option ℚ := none
deriving DecidableEq, Repr

/-! ## PreferenceBasedStrategy -/

/-- `PreferenceBasedStrategy._get_shift_type`: morning 06-14h, evening
14-22h, night otherwise; `'regular'` when there is no start time. -/
def pb_get_shift_type (sh : Shift) : String :=
  match sh.start? with
  | none => "regular"
  | some t =>
    if 6 ≤ t.hour ∧ t.hour < 14 then "morning"
    else if 14 ≤ t.hour ∧ t.hour < 22 then "evening"
    else "night"

/-- `PreferenceBasedStrategy._can_work_shift` against the pre-fetched
preference snapshot. -/
def pb_can_work_shift (pr : PrefRecord) (sh : Shift) : Bool :=
  match sh.start? with
  | none => false
  | some t =>
    if pr.unavailable_days.contains t.weekday then false
    else if !sh.required_skills.isEmpty
            && !(sh.required_skills.all (fun sk => pr.skills.contains sk)) then false
    else true

/-- `PreferenceBasedStrategy._calculate_preference_score`: +3 for a
preferred shift type, −10 for an unavailable day. -/
def pb_preference_score (pr : PrefRecord) (day : Nat) (ty : String) : Int :=
  (if pr.preferred_shift_types.contains ty then 3 else 0)
    + (if pr.unavailable_days.contains day then -10 else 0)

/-- Candidate ordering key of `candidates.sort(key=lambda x: (-x[1], x[2]))`:
score descending, then current hours ascending (non-strict, so Python's
stable sort and `sortLe` agree). -/
def pbCandLe (a b : Nat × Int × ℚ) : Bool :=
  decide (-a.2.1 < -b.2.1 ∨ (a.2.1 = b.2.1 ∧ a.2.2 ≤ b.2.2))

/-- One iteration of the `for shift in sorted_shifts` loop of
`PreferenceBasedStrategy.generate_schedule`: build the eligible,
under-cap candidate list with preference scores, rank it, and commit the
top `needed` candidates by direct `_assign_shift`. -/
def pb_process_shift (P : Prefs) (σ : SchedState) (sid : Nat) : SchedState :=
  match findShift σ sid with
  | none => σ
  | some sh =>
    let needed : Int := (sh.required_staff : Int) - (sh.assigned_staff.length : Int)
    if needed ≤ 0 then σ
    else
      let ty := pb_get_shift_type sh
      let day := ((sh.start?).map PyDateTime.weekday).getD 0
      let cands := σ.staff.filterMap (fun p =>
        let pr := prefsOf P p.id
        if pb_can_work_shift pr sh then
          if p.total_hours < pr.max_hours_per_week then
            some (p.id, pb_preference_score pr day ty, p.total_hours)
          else none
        else none)
      let picked := (sortLe pbCandLe cands).take needed.toNat
      picked.foldl (fun σ2 c => assign_shift σ2 c.1 sid) σ

/-- Chronological shift order (`sorted(shifts, key=getattr(x, 'start_time',
datetime.min))`), as a list of shift ids. -/
def pbShiftOrder (shifts : List Shift) : List Nat :=
  (sortLe (fun a b => decide (((a.start?).getD ⟨0⟩).minutes ≤ ((b.start?).getD ⟨0⟩).minutes)) shifts).map (·.id)

/-- The state transformation of `PreferenceBasedStrategy.generate_schedule`:
reset, then process every shift in chronological order. -/
def pb_run (P : Prefs) (σ : SchedState) : SchedState :=
  let σ0 := reset_assignments σ
  (pbShiftOrder σ0.shifts).foldl (pb_process_shift P) σ0

/-- `PreferenceBasedStrategy._calculate_overall_preference_score`: mean
over staff with ≥ 1 assignment of the percentage of their assigned shifts
in a preferred type. -/
def pb_overall_preference_score (P : Prefs) (σ : SchedState) : ℚ :=
  let contribs := σ.staff.filterMap (fun p =>
    if p.assigned_shifts.isEmpty then none
    else
      let pr := prefsOf P p.id
      let preferred := (p.assigned_shifts.filterMap (findShift σ ·)).filter
        (fun sh => pr.preferred_shift_types.contains (pb_get_shift_type sh))
      some (((preferred.length : ℚ) / (p.assigned_shifts.length : ℚ)) * 100))
  if contribs.length = 0 then 0 else contribs.sum / (contribs.length : ℚ)

/-- `PreferenceBasedStrategy.generate_schedule` (start/end dates are unused
by the strategy body). -/
def pb_generate_schedule (P : Prefs) (σ : SchedState) (_start _end : Nat) :
    ScheduleResult × SchedState :=
  let σF := pb_run P σ
  ({ strategy := "Preference Based",
     schedule := format_schedule σF.shifts,
     summary := generate_summary σF.staff,
     preference_score? := some (pb_overall_preference_score P σF) }, σF)

/-! ## DayNightDistributeStrategy -/

/-- `DayNightDistributeStrategy._get_shift_type`: 06-18h is day-side,
subdivided as `'day'` (hour < 14) / `'evening'`; otherwise `'night'`;
`'regular'` without a start time. -/
def dn_get_shift_type (sh : Shift) : String :=
  match sh.start? with
  | none => "regular"
  | some t =>
    if 6 ≤ t.hour ∧ t.hour < 18 then (if t.hour < 14 then "day" else "evening")
    else "night"

/-- The day-bucket test of `generate_schedule`:
`shift_type in ['morning', 'evening']`. -/
def dnIsDayBucket (sh : Shift) : Bool :=
  let t := dn_get_shift_type sh
  t == "morning" || t == "evening"

/-- `day_pref`: some preferred type is in `['morning', 'evening']`. -/
def dn_day_pref (P : Prefs) (pid : Nat) : Bool :=
  (prefsOf P pid).preferred_shift_types.any (fun t => t == "morning" || t == "evening")

/-- `night_pref`: `'night' in preferred_types`. -/
def dn_night_pref (P : Prefs) (pid : Nat) : Bool :=
  (prefsOf P pid).preferred_shift_types.contains "night"

/-- The staff categorization loop of `generate_schedule`: day-preferring,
night-preferring, neutral (in roster order, one bucket per person). -/
def dn_categorize (P : Prefs) (ids : List Nat) : List Nat × List Nat × List Nat :=
  (ids.filter (fun i => dn_day_pref P i && !dn_night_pref P i),
   ids.filter (fun i => dn_night_pref P i && !dn_day_pref P i),
   ids.filter (fun i => !(dn_day_pref P i && !dn_night_pref P i)
                        && !(dn_night_pref P i && !dn_day_pref P i)))

/-- `DayNightDistributeStrategy._can_work_shift` (fetches preferences
itself). -/
def dn_can_work_shift (P : Prefs) (pid : Nat) (sh : Shift) : Bool :=
  match sh.start? with
  | none => false
  | some t =>
    !(prefsOf P pid).unavailable_days.contains t.weekday
      && sh.required_skills.all (fun sk => (prefsOf P pid).skills.contains sk)

/-- `DayNightDistributeStrategy._assign_if_available`: commit through
`_assign_shift` only when current hours + duration stay within the weekly
cap; returns whether it committed. -/
def dn_assign_if_available (P : Prefs) (σ : SchedState) (pid sid : Nat) :
    Bool × SchedState :=
  let maxH := (prefsOf P pid).max_hours_per_week
  let cur := totalHoursOf σ pid
  let dur := ((findShift σ sid).map shift_duration).getD 8
  if cur + dur ≤ maxH then (true, assign_shift σ pid sid) else (false, σ)

/-- One iteration of a bucket-filling loop of
`DayNightDistributeStrategy.generate_schedule`: the candidate pool is
`primary + neutral`, filtered by eligibility, sorted by ascending current
hours; the top `needed` are offered to `_assign_if_available`, and a
committed neutral candidate is removed from the neutral pool. -/
def dn_shift_step (P : Prefs) (primary : List Nat) (acc : SchedState × List Nat)
    (sid : Nat) : SchedState × List Nat :=
  match findShift acc.1 sid with
  | none => acc
  | some sh =>
    let needed : Int := (sh.required_staff : Int) - (sh.assigned_staff.length : Int)
    if needed ≤ 0 then acc
    else
      let σ := acc.1
      let cands := (primary ++ acc.2).filter (fun pid => dn_can_work_shift P pid sh)
      let picked := (sortLe (fun a b => decide (totalHoursOf σ a ≤ totalHoursOf σ b)) cands).take needed.toNat
      picked.foldl (fun acc2 pid =>
        let r := dn_assign_if_available P acc2.1 pid sid
        if r.1 then (r.2, acc2.2.erase pid) else (r.2, acc2.2)) (σ, acc.2)

/-- The state transformation of
`DayNightDistributeStrategy.generate_schedule`: reset, split shifts into
the day and night buckets, categorize staff, fill day shifts then night
shifts. -/
def dn_run (P : Prefs) (σ : SchedState) : SchedState :=
  let σ0 := reset_assignments σ
  let cat := dn_categorize P (σ0.staff.map (·.id))
  let dayB := (σ0.shifts.filter dnIsDayBucket).map (·.id)
  let nightB := (σ0.shifts.filter (fun sh => !dnIsDayBucket sh)).map (·.id)
  let a1 := dayB.foldl (dn_shift_step P cat.1) (σ0, cat.2.2)
  let a2 := nightB.foldl (dn_shift_step P cat.2.1) a1
  a2.1

/-- `DayNightDistributeStrategy._calculate_distribution_score`. -/
def dn_distribution_score (day_shifts night_shifts day_staff night_staff : Nat) : ℚ :=
  if day_shifts + night_shifts = 0 then 0
  else if day_staff + night_staff = 0 then 0
  else
    let ideal : ℚ := (day_staff : ℚ) / ((day_staff : ℚ) + (night_staff : ℚ))
    let actual : ℚ := (day_shifts : ℚ) / ((day_shifts : ℚ) + (night_shifts : ℚ))
    max 0 (100 - |ideal - actual| * 200)

/-- `DayNightDistributeStrategy.generate_schedule` with its
`_create_schedule_result` (which counts assigned day shifts with the tags
`['day', 'evening']`, unlike the bucket split). -/
def dn_generate_schedule (P : Prefs) (σ : SchedState) (_start _end : Nat) :
    ScheduleResult × SchedState :=
  let cat := dn_categorize P ((reset_assignments σ).staff.map (·.id))
  let σF := dn_run P σ
  let dayAssigned := (σF.shifts.filter (fun s =>
    (dn_get_shift_type s == "day" || dn_get_shift_type s == "evening")
      && !s.assigned_staff.isEmpty)).length
  let nightAssigned := (σF.shifts.filter (fun s =>
    dn_get_shift_type s == "night" && !s.assigned_staff.isEmpty)).length
  let baseSummary := generate_summary σF.staff
  ({ strategy := "Day/Night Distribution",
     schedule := format_schedule σF.shifts,
     summary := baseSummary.map (fun s =>
       { s with day_staff_count? := some cat.1.length,
                night_staff_count? := some cat.2.1.length,
                day_shifts_assigned? := some dayAssigned,
                night_shifts_assigned? := some nightAssigned }),
     distribution_score? := some (dn_distribution_score dayAssigned nightAssigned
       cat.1.length cat.2.1.length) }, σF)

/-! ## Registry / orchestrator -/

/-- The only exception kind raised by the scheduling code paths modelled
here (Python `ValueError`; `str(e)` is the message). -/
inductive PyExn where
  | valueError (msg : String)
deriving DecidableEq, Repr

/-- A strategy instance: preferences, object graph and window in, result
dictionary and mutated graph out. -/
def StrategyFn : Type :=
  Prefs → SchedState → Nat → Nat → ScheduleResult × SchedState

/-- A placeholder instance for the strategies whose implementation is not
in the reviewed sources; concrete scenarios never dispatch to it. -/
def trivialStrategy : StrategyFn := fun _ σ _ _ =>
  ({ strategy := "", schedule := [], summary := none }, σ)

/-- The single quote character, for rendering Python `str(list)`. -/
def pyQuote : String := (Char.ofNat 39).toString

/-- Python `str` of a list of strings (single-quoted, comma-separated). -/
def pyListRepr (l : List String) : String :=
  "[" ++ String.intercalate ", " (l.map (fun s => pyQuote ++ s ++ pyQuote)) ++ "]"

/-- Registry keys of `Scheduler`, in insertion order. -/
def schedulerKeys : List String :=
  ["even_distribute", "minimize_days", "shift_type_optimize", "preference_based",
   "day_night_distribute"]

/-- The message of `Scheduler.generate_schedule`'s unknown-strategy
`ValueError`. -/
def schedulerUnknownMsg (name : String) : String :=
  "Unknown strategy: " ++ name ++ ". Available strategies: " ++ pyListRepr schedulerKeys

/-- `Scheduler.generate_schedule`: dict lookup, `ValueError` listing the
available keys on a miss, otherwise delegate.  The three strategies whose
sources are not reviewed are opaque parameters. -/
def scheduler_generate_schedule (ev mi so : StrategyFn) (P : Prefs) (name : String)
    (σ : SchedState) (s e : Nat) : Except PyExn ScheduleResult × SchedState :=
  if name = "even_distribute" then let r := ev P σ s e; (.ok r.1, r.2)
  else if name = "minimize_days" then let r := mi P σ s e; (.ok r.1, r.2)
  else if name = "shift_type_optimize" then let r := so P σ s e; (.ok r.1, r.2)
  else if name = "preference_based" then let r := pb_generate_schedule P σ s e; (.ok r.1, r.2)
  else if name = "day_night_distribute" then let r := dn_generate_schedule P σ s e; (.ok r.1, r.2)
  else (.error (.valueError (schedulerUnknownMsg name)), σ)

/-- Registry keys of `ScheduleClient`, in insertion order. -/
def clientKeys : List String :=
  ["even-distribute", "minimize-days", "preference-based", "day-night-distribute"]

/-- `ScheduleClient.generate_schedule`: membership test, `ValueError`
without the key listing on a miss, otherwise delegate. -/
def client_generate_schedule (ev mi : StrategyFn) (P : Prefs) (name : String)
    (σ : SchedState) (s e : Nat) : Except PyExn ScheduleResult × SchedState :=
  if name = "even-distribute" then let r := ev P σ s e; (.ok r.1, r.2)
  else if name = "minimize-days" then let r := mi P σ s e; (.ok r.1, r.2)
  else if name = "preference-based" then let r := pb_generate_schedule P σ s e; (.ok r.1, r.2)
  else if name = "day-night-distribute" then let r := dn_generate_schedule P σ s e; (.ok r.1, r.2)
  else (.error (.valueError ("Unknown strategy: " ++ name)), σ)

/-! ## Shift catalog generation (`ScheduleClient`) -/

/-- `ScheduleClient._get_shift_times`: computes one candidate slot's start
and end; a `replace` hour out of 0..23 raises. -/
def get_shift_times (d : Nat) (shift_num : Nat) (ty : String) :
    Except String (PyDateTime × PyDateTime) :=
  let base := dateAtMidnight d
  if ty = "day" then
    match replaceHour base (8 + shift_num) with
    | .error m => .error m
    | .ok st =>
      match replaceHour base (8 + shift_num + 8) with
      | .error m => .error m
      | .ok en => .ok (st, en)
  else if ty = "night" then
    match replaceHour base (22 + shift_num) with
    | .error m => .error m
    | .ok st =>
      match replaceHour (dateAtMidnight (d + 1)) ((22 + shift_num + 8) % 24) with
      | .error m => .error m
      | .ok en => .ok (st, en)
  else
    if shift_num = 0 then
      match replaceHour base 8 with
      | .error m => .error m
      | .ok st =>
        match replaceHour base 16 with
        | .error m => .error m
        | .ok en => .ok (st, en)
    else
      match replaceHour base 16 with
      | .error m => .error m
      | .ok st =>
        match replaceHourMinute base 23 59 with
        | .error m => .error m
        | .ok en => .ok (st, en)

/-- `for shift_num in range(n)` starting at `i` with `n` iterations left,
collecting results and propagating the first raise. -/
def forNums {α : Type} (f : Nat → Except String α) : Nat → Nat → Except String (List α)
  | _, 0 => .ok []
  | i, n + 1 =>
    match f i with
    | .error m => .error m
    | .ok y =>
      match forNums f (i + 1) n with
      | .error m => .error m
      | .ok ys => .ok (y :: ys)

/-- The inner (per-day) loop of `_generate_shifts_for_period`. -/
def gen_day_times (d spd : Nat) (ty : String) : Except String (List (PyDateTime × PyDateTime)) :=
  forNums (fun j => get_shift_times d j ty) 0 spd

/-- The body of the `while current_date <= end_date` loop of
`_generate_shifts_for_period`, written structurally on the number of
remaining days: starting at day `cur` with `n` days left to process. -/
def genPeriodGo (spd : Nat) (ty : String) : Nat → Nat → Except String (List (PyDateTime × PyDateTime))
  | _, 0 => .ok []
  | cur, n + 1 =>
    match gen_day_times cur spd ty with
    | .error m => .error m
    | .ok day =>
      match genPeriodGo spd ty (cur + 1) n with
      | .error m => .error m
      | .ok rest => .ok (day ++ rest)

/-- The `while current_date <= end_date` loop of
`_generate_shifts_for_period`: the loop runs once per day of the inclusive
range, i.e. `e + 1 - s` times. -/
def gen_period_times (s e spd : Nat) (ty : String) :
    Except String (List (PyDateTime × PyDateTime)) :=
  genPeriodGo spd ty s (e + 1 - s)

/-- The `MockShift` constructed per slot (identifier = position in the
catalog). -/
def mkMockShift (ty : String) (idx : Nat) (tt : PyDateTime × PyDateTime) : Shift :=
  { id := idx, start? := some tt.1, end? := some tt.2, required_staff := 1,
    required_skills := [],
    duration_hours? := some (((tt.2.minutes : ℚ) - (tt.1.minutes : ℚ)) / 60),
    shift_type := ty, assigned_staff := [] }

/-- `ScheduleClient._generate_shifts_for_period`. -/
def generate_shifts_for_period (s e spd : Nat) (ty : String) : Except String (List Shift) :=
  match gen_period_times s e spd ty with
  | .error m => .error m
  | .ok l => .ok (l.mapIdx (mkMockShift ty))

/-- The slot-slicing rule as the spec states it (§6): `day` starts at hour
`8 + shift_num` with an 8-hour duration; `night` starts at hour
`22 + shift_num` with an 8-hour duration wrapping past midnight; any other
type is 08:00-16:00 for `shift_num = 0` and 16:00-23:59 otherwise.  Stated
from the spec's words, to be compared with `get_shift_times`. -/
def specSliceTimes (d j : Nat) (ty : String) : PyDateTime × PyDateTime :=
  if ty = "day" then (⟨d * 1440 + (8 + j) * 60⟩, ⟨d * 1440 + (8 + j) * 60 + 480⟩)
  else if ty = "night" then (⟨d * 1440 + (22 + j) * 60⟩, ⟨d * 1440 + (22 + j) * 60 + 480⟩)
  else if j = 0 then (⟨d * 1440 + 480⟩, ⟨d * 1440 + 960⟩)
  else (⟨d * 1440 + 960⟩, ⟨d * 1440 + 23 * 60 + 59⟩)

/-! ## Persistence model and `auto_populate` -/

/-- A persisted shift row (`Shift` model columns used by the client). -/
structure ShiftRow where
  schedule_id : Nat
  staff_id : Nat
  start_time : PyDateTime
  end_time : PyDateTime
deriving DecidableEq, Repr

/-- Modelled from the spec: the persistence collaborator (§1, §5, §6) —
SQLAlchemy session semantics: `rows` is the durable table; deletions and
insertions are pending until `commit` makes them durable; `rollback`
discards only pending work. -/
structure Db where
  rows : List ShiftRow
  pendingAdd : List ShiftRow := []
  pendingDelete : List ShiftRow := []
deriving DecidableEq, Repr

/-- `db.session.commit()`: apply pending deletions and insertions to the
durable table. -/
def commitDb (db : Db) : Db :=
  ⟨(db.rows.filter (fun r => decide (r ∉ db.pendingDelete))) ++ db.pendingAdd, [], []⟩

/-- `db.session.rollback()`: discard pending (uncommitted) work only. -/
def rollbackDb (db : Db) : Db := { db with pendingAdd := [], pendingDelete := [] }

/-- Window membership test of `_clear_existing_shifts`: same schedule and
`start_time` within the inclusive full-day bounds. -/
def inClearWindow (schid s e : Nat) (r : ShiftRow) : Bool :=
  r.schedule_id == schid
    && (dateAtMidnight s).minutes ≤ r.start_time.minutes
    && r.start_time.minutes ≤ (dateAtMidnight e).minutes + 1439

/-- `ScheduleClient._clear_existing_shifts`: query, delete each hit, then
commit immediately; returns the count. -/
def clear_existing_shifts (schid s e : Nat) (db : Db) : Nat × Db :=
  let hits := db.rows.filter (inClearWindow schid s e)
  (hits.length, commitDb { db with pendingDelete := db.pendingDelete ++ hits })

/-- `ScheduleClient._save_shifts_to_db`: one new row per committed
(staff, shift) pair (a shift without both timestamps is skipped by the
per-row `except: continue`), then commit; returns the created count. -/
def save_shifts_to_db (schid : Nat) (shifts : List Shift) (db : Db) : Nat × Db :=
  let newRows := shifts.flatMap (fun sh =>
    match sh.start?, sh.end? with
    | some a, some b => sh.assigned_staff.map (fun pid => ShiftRow.mk schid pid a b)
    | _, _ => [])
  (newRows.length, commitDb { db with pendingAdd := db.pendingAdd ++ newRows })

/-- `ScheduleClient._validate_schedule_results`: an empty summary passes;
otherwise the three balance checks, in order, each raising `ValueError`. -/
def validate_schedule_results (summary : Option Summary) (staff_count : Nat) :
    Except PyExn Unit :=
  match summary with
  | none => .ok ()
  | some s =>
    if 20 < s.max_hours - s.min_hours then
      .error (.valueError "Schedule too unbalanced - hour difference exceeds 20 hours")
    else if s.total_shifts_assigned < staff_count then
      .error (.valueError "Not enough shifts assigned - some staff may have no shifts")
    else if s.average_hours_per_staff * (3 / 2) < s.max_hours then
      .error (.valueError "Schedule distribution too uneven")
    else .ok ()

/-- `ScheduleClient._get_assignments_list`: flattened per-assignment
listing for display. -/
def get_assignments_list (shifts : List Shift) : List (Nat × PyDateTime × PyDateTime) :=
  shifts.flatMap (fun sh =>
    match sh.start?, sh.end? with
    | some a, some b => sh.assigned_staff.map (fun pid => (pid, a, b))
    | _, _ => [])

/-- The dictionary `auto_populate` returns from inside its `try`. -/
inductive AutoResult where
  | success (schedule_id shifts_created shifts_deleted : Nat) (score : ℚ)
      (summary : Option Summary) (assignments : List (Nat × PyDateTime × PyDateTime))
      (strategy_used : String)
  | failure (message : String)
deriving DecidableEq, Repr

/-- `ScheduleClient.auto_populate`.  The three input validations raise
(first component `.error`, state unchanged); everything inside the `try`
is caught and turned into a `failure` dictionary after a session rollback.
Note that `_clear_existing_shifts` and `_save_shifts_to_db` both commit,
so the rollback never undoes them. -/
def auto_populate (ev mi : StrategyFn) (P : Prefs) (_admin_id schid : Nat)
    (name : String) (staff_list : List Staff) (s e : Nat) (spd : Int) (ty : String)
    (db : Db) : Except PyExn AutoResult × Db :=
  if staff_list.isEmpty then (.error (.valueError "Staff list cannot be empty"), db)
  else if e < s then (.error (.valueError "Start date must be before end date"), db)
  else if spd ≤ 0 then (.error (.valueError "Shifts per day must be positive"), db)
  else
    let cleared := clear_existing_shifts schid s e db
    match generate_shifts_for_period s e spd.toNat ty with
    | .error m =>
      (.ok (.failure ("Failed to auto-generate schedule: " ++ m)), rollbackDb cleared.2)
    | .ok catalog =>
      match client_generate_schedule ev mi P name ⟨staff_list, catalog⟩ s e with
      | (.error (.valueError m), _) =>
        (.ok (.failure ("Failed to auto-generate schedule: " ++ m)), rollbackDb cleared.2)
      | (.ok result, σF) =>
        let saved := save_shifts_to_db schid σF.shifts cleared.2
        match validate_schedule_results result.summary staff_list.length with
        | .error (.valueError m) =>
          (.ok (.failure ("Failed to auto-generate schedule: " ++ m)), rollbackDb saved.2)
        | .ok _ =>
          (.ok (.success schid saved.1 cleared.1 ((result.score?).getD 0) result.summary
            (get_assignments_list σF.shifts) name), saved.2)

deriving instance DecidableEq for Except

/-- Invariant of the neutral-pool bookkeeping in
`DayNightDistributeStrategy.generate_schedule` (for claim C9), relative to
the initially-neutral ids `u0`: staff ids are distinct, the current pool
is a nodup subset of `u0`, and every initially-neutral member either is
still pooled with no assignment, or has left the pool with at most one. -/
def NeutralInv (u0 : List Nat) (a : SchedState × List Nat) : Prop :=
  (a.1.staff.map Staff.id).Nodup
  ∧ a.2 ⊆ u0
  ∧ a.2.Nodup
  ∧ ∀ p ∈ a.1.staff, p.id ∈ u0 →
      (p.id ∈ a.2 ∧ p.assigned_shifts = []) ∨ (p.id ∉ a.2 ∧ p.assigned_shifts.length ≤ 1)

/-! ## Claim theorems -/

/-- Claim C5: balance validation fails exactly when
`max_hours − min_hours > 20` ("too unbalanced"), or
`total_shifts_assigned < staff_count` ("not enough shifts assigned"), or
`max_hours > average_hours × 1.5` ("distribution too uneven"), with the
checks performed in that order; an empty summary passes without any
check. -/
theorem C5_theorem (s : Summary) (n : Nat) :
    validate_schedule_results none n = .ok ()
    ∧ (validate_schedule_results (some s) n = .ok ()
        ↔ ¬(20 < s.max_hours - s.min_hours ∨ s.total_shifts_assigned < n
            ∨ s.average_hours_per_staff * (3 / 2) < s.max_hours))
    ∧ (validate_schedule_results (some s) n
          = .error (.valueError "Schedule too unbalanced - hour difference exceeds 20 hours")
        ↔ 20 < s.max_hours - s.min_hours)
    ∧ (validate_schedule_results (some s) n
          = .error (.valueError "Not enough shifts assigned - some staff may have no shifts")
        ↔ (¬ 20 < s.max_hours - s.min_hours ∧ s.total_shifts_assigned < n))
    ∧ (validate_schedule_results (some s) n
          = .error (.valueError "Schedule distribution too uneven")
        ↔ (¬ 20 < s.max_hours - s.min_hours ∧ ¬ s.total_shifts_assigned < n
            ∧ s.average_hours_per_staff * (3 / 2) < s.max_hours)) := by
  unfold validate_schedule_results
  refine ⟨rfl, ?_, ?_, ?_, ?_⟩ <;> dsimp only <;> split_ifs <;> simp_all

/-- Claim C7: both strategies' `_can_work_shift` return false exactly when
the shift lacks a start time, or its weekday is in the staff member's
unavailable set (regardless of skills), or some required skill is missing
from the staff member's skill set — and true otherwise. -/
theorem C7_theorem (pr : PrefRecord) (P : Prefs) (pid : Nat) (sh : Shift) :
    (pb_can_work_shift pr sh = true
      ↔ ∃ t, sh.start? = some t ∧ t.weekday ∉ pr.unavailable_days
          ∧ ∀ sk ∈ sh.required_skills, sk ∈ pr.skills)
    ∧ (dn_can_work_shift P pid sh = true
      ↔ ∃ t, sh.start? = some t ∧ t.weekday ∉ (prefsOf P pid).unavailable_days
          ∧ ∀ sk ∈ sh.required_skills, sk ∈ (prefsOf P pid).skills) := by
  unfold pb_can_work_shift dn_can_work_shift
  cases hs : sh.start? with
  | none => simp
  | some t =>
    dsimp only
    constructor
    · split_ifs with h1 h2 <;>
        simp_all [List.all_eq_true, List.isEmpty_iff]
      intro sk hsk
      rcases eq_or_ne sh.required_skills [] with he | he
      · rw [he] at hsk; simp at hsk
      · exact h2 he sk hsk
    · simp_all [List.all_eq_true]

unseal Rat.add Rat.mul Rat.sub Rat.inv in
/-- Claim C2, evaluated at the failing input: a shift starting 08:00 gets
derived type `"day"` from `DayNightDistributeStrategy._get_shift_type`,
which the day-bucket test `shift_type in ['morning', 'evening']` rejects,
so the shift lands in the night bucket; consequently, with a
morning-preferring staff member 0 and a night-preferring staff member 1,
the 08:00 shift is filled in the night pass by member 1 while member 0
stays unassigned. -/
theorem C2_theorem :
    dn_get_shift_type { id := 0, start? := some ⟨480⟩, end? := some ⟨960⟩ } = "day"
    ∧ dnIsDayBucket { id := 0, start? := some ⟨480⟩, end? := some ⟨960⟩ } = false
    ∧ (dn_run (fun i => if i = 0 then some { preferred_shift_types := ["morning"] }
        else if i = 1 then some { preferred_shift_types := ["night"] } else none)
        ⟨[{ id := 0 }, { id := 1 }], [{ id := 0, start? := some ⟨480⟩, end? := some ⟨960⟩ }]⟩).staff
      = [{ id := 0 }, { id := 1, total_hours := 8, assigned_shifts := [0] }] := by
  exact ⟨by decide, by decide, by decide⟩

unseal Rat.add Rat.mul Rat.sub Rat.inv in
/-- Claim C1 counterexample: after
`PreferenceBasedStrategy.generate_schedule`, the single staff member with
`max_hours_per_week = 10` holds two 8-hour shifts, `total_hours = 16`,
strictly above the cap — candidates are only pre-filtered on
`current_hours < max_hours` and then committed unconditionally by
`_assign_shift`. -/
theorem C1_counterexample :
    ((pb_generate_schedule (fun i => if i = 0 then some { max_hours_per_week := 10 } else none)
        ⟨[{ id := 0 }], [{ id := 0, start? := some ⟨480⟩, end? := some ⟨960⟩ },
          { id := 1, start? := some ⟨1920⟩, end? := some ⟨2400⟩ }]⟩ 0 1).2.staff
      = [{ id := 0, total_hours := 16, assigned_shifts := [0, 1] }])
    ∧ (prefsOf (fun i => if i = 0 then some { max_hours_per_week := 10 } else none) 0).max_hours_per_week = 10
    ∧ ¬ ((16 : ℚ) ≤ 10) := by
  exact ⟨by decide, by decide, by decide⟩

/-- Claim C6 counterexample: a one-day window with `shift_type = "night"`
and `shifts_per_day = 3` produces no catalog at all — the generation for
day 0 fails at `shift_num = 2` (start hour 24), so there is no shift for
any `(day, shift_num)` pair of this window, contrary to the claimed
"exactly one candidate shift" for each pair. -/
theorem C6_counterexample :
    generate_shifts_for_period 0 0 3 "night" = .error "hour must be in 0..23" := by
  decide

/-- Claim C4 counterexample: `ScheduleClient.generate_schedule` with an
unknown name raises `ValueError("Unknown strategy: bogus")` — a message
that does not list the registered strategy names (e.g. it does not even
mention `even-distribute`). -/
theorem C4_counterexample :
    client_generate_schedule trivialStrategy trivialStrategy (fun _ => none) "bogus"
        ⟨[], []⟩ 0 0
      = (.error (.valueError "Unknown strategy: bogus"), ⟨[], []⟩)
    ∧ ¬ ("even-distribute".data <:+: "Unknown strategy: bogus".data) := by
  exact ⟨by decide, by decide⟩

unseal Rat.add Rat.mul Rat.sub Rat.inv in
/-- Claim C3 counterexample: a run whose balance validation fails (two
staff, one generated shift, so `total_shifts_assigned = 1 < 2`) returns a
structured failure, but the persisted state is not left unchanged: the
pre-existing row of schedule 7 was deleted and committed by
`_clear_existing_shifts`, and the new assignment row was committed by
`_save_shifts_to_db` before validation ran, so the failed attempt's
partially-repopulated schedule survives the `rollback`. -/
theorem C3_counterexample :
    (auto_populate trivialStrategy trivialStrategy (fun _ => none) 1 7 "preference-based"
        [{ id := 0 }, { id := 1 }] 0 0 1 "mixed" ⟨[⟨7, 3, ⟨600⟩, ⟨700⟩⟩], [], []⟩
      = (.ok (.failure "Failed to auto-generate schedule: Not enough shifts assigned - some staff may have no shifts"),
         ⟨[⟨7, 0, ⟨480⟩, ⟨960⟩⟩], [], []⟩))
    ∧ ([(⟨7, 0, ⟨480⟩, ⟨960⟩⟩ : ShiftRow)] ≠ [(⟨7, 3, ⟨600⟩, ⟨700⟩⟩ : ShiftRow)])
    ∧ (auto_populate trivialStrategy trivialStrategy (fun _ => none) 1 7 "preference-based"
        [] 0 0 1 "mixed" ⟨[⟨7, 3, ⟨600⟩, ⟨700⟩⟩], [], []⟩).1
      = .error (.valueError "Staff list cannot be empty") := by
  exact ⟨by decide, by decide, by decide⟩

/-- Claim C10: `_get_shift_times` with `shift_type = "night"` is only
defined for `shift_num ≤ 1`: for `shift_num ≥ 2` the computed start hour
`22 + shift_num` reaches 24, which `datetime.replace` rejects, so the call
raises instead of producing a wrapped start time; consequently
`auto_populate` with `"night"` and `shifts_per_day ≥ 3` cannot generate a
catalog and reports the failure. -/
theorem C10_theorem (d j : Nat) (hj : 2 ≤ j) (s e : Nat) (hse : s ≤ e) (spd : Int)
    (hspd : 3 ≤ spd) (ev mi : StrategyFn) (P : Prefs) (aid schid : Nat) (name : String)
    (staffL : List Staff) (hstaff : staffL ≠ []) (rows : List ShiftRow) :
    get_shift_times d j "night" = .error "hour must be in 0..23"
    ∧ (∀ j' : Nat, j' ≤ 1 → ∃ out, get_shift_times d j' "night" = .ok out)
    ∧ gen_period_times s e spd.toNat "night" = .error "hour must be in 0..23"
    ∧ (auto_populate ev mi P aid schid name staffL s e spd "night" ⟨rows, [], []⟩).1
        = .ok (.failure "Failed to auto-generate schedule: hour must be in 0..23") := by
  have herr2 : ∀ d' : Nat, get_shift_times d' 2 "night" = .error "hour must be in 0..23" := fun _ => rfl
  have hday_err : ∀ d' k, gen_day_times d' (k + 3) "night" = .error "hour must be in 0..23" := by
    intro d' k
    obtain ⟨v0, h0⟩ : ∃ v, get_shift_times d' 0 "night" = .ok v := ⟨_, rfl⟩
    obtain ⟨v1, h1⟩ : ∃ v, get_shift_times d' 1 "night" = .ok v := ⟨_, rfl⟩
    show forNums (fun j => get_shift_times d' j "night") 0 (k + 3) = _
    rw [forNums, h0, forNums, h1, forNums, herr2 d']
  have hperiod : gen_period_times s e spd.toNat "night" = .error "hour must be in 0..23" := by
    obtain ⟨k, hk⟩ : ∃ k, spd.toNat = k + 3 := ⟨spd.toNat - 3, by omega⟩
    obtain ⟨m, hm⟩ : ∃ m, e + 1 - s = m + 1 := ⟨e - s, by omega⟩
    rw [gen_period_times, hk, hm, genPeriodGo, hday_err]
  refine ⟨?_, ?_, hperiod, ?_⟩
  · unfold get_shift_times replaceHour
    rw [if_neg (by decide), if_pos rfl, if_neg (by omega)]
  · intro j' hj'
    interval_cases j' <;> exact ⟨_, rfl⟩
  · unfold auto_populate
    rw [if_neg (by simp [hstaff]), if_neg (by omega), if_neg (by omega)]
    have hg : generate_shifts_for_period s e spd.toNat "night" = .error "hour must be in 0..23" := by
      rw [generate_shifts_for_period, hperiod]
    rw [hg]
    rfl

/-- Witness for C10 at `shift_num = 2`, a one-day window and
`shifts_per_day = 3`. -/
theorem C10_witness :
    (2 : Nat) ≤ 2 ∧ (0 : Nat) ≤ 0 ∧ (3 : Int) ≤ 3 ∧ ([{ id := 0 }] : List Staff) ≠ []
    ∧ (get_shift_times 0 2 "night" = .error "hour must be in 0..23"
       ∧ (∀ j' : Nat, j' ≤ 1 → ∃ out, get_shift_times 0 j' "night" = .ok out)
       ∧ gen_period_times 0 0 (3 : Int).toNat "night" = .error "hour must be in 0..23"
       ∧ (auto_populate trivialStrategy trivialStrategy (fun _ => none) 0 0 "preference-based"
            [{ id := 0 }] 0 0 3 "night" ⟨[], [], []⟩).1
          = .ok (.failure "Failed to auto-generate schedule: hour must be in 0..23")) :=
  ⟨by decide, by decide, by decide, by decide,
   C10_theorem 0 2 (by decide) 0 0 (by decide) 3 (by decide) trivialStrategy trivialStrategy
     (fun _ => none) 0 0 "preference-based" [{ id := 0 }] (by decide) []⟩

/-- `_get_shift_times` for `"day"` within bounds, in closed form. -/
theorem gst_day (d j : Nat) (hj : j ≤ 7) :
    get_shift_times d j "day"
      = .ok (⟨d * 1440 + (8 + j) * 60⟩, ⟨d * 1440 + (8 + j) * 60 + 480⟩) := by
  unfold get_shift_times replaceHour dateAtMidnight
  rw [if_pos rfl, if_pos (show 8 + j ≤ 23 by omega)]
  dsimp only
  rw [if_pos (show 8 + j + 8 ≤ 23 by omega)]
  dsimp only
  simp only [Except.ok.injEq, Prod.mk.injEq, PyDateTime.mk.injEq]
  constructor <;> omega

/-- `_get_shift_times` for `"night"` within bounds, in closed form. -/
theorem gst_night (d j : Nat) (hj : j ≤ 1) :
    get_shift_times d j "night"
      = .ok (⟨d * 1440 + (22 + j) * 60⟩, ⟨d * 1440 + (22 + j) * 60 + 480⟩) := by
  unfold get_shift_times replaceHour dateAtMidnight
  rw [if_neg (show ¬("night" = "day") by decide), if_pos rfl,
    if_pos (show 22 + j ≤ 23 by omega)]
  dsimp only
  rw [if_pos (show (22 + j + 8) % 24 ≤ 23 by omega)]
  dsimp only
  simp only [Except.ok.injEq, Prod.mk.injEq, PyDateTime.mk.injEq]
  constructor <;> omega

/-- `_get_shift_times` for any other type (the `"mixed"` branch), in
closed form. -/
theorem gst_other (d j : Nat) (ty : String) (h1 : ty ≠ "day") (h2 : ty ≠ "night") :
    get_shift_times d j ty
      = .ok (if j = 0 then (⟨d * 1440 + 480⟩, ⟨d * 1440 + 960⟩)
             else (⟨d * 1440 + 960⟩, ⟨d * 1440 + 23 * 60 + 59⟩)) := by
  unfold get_shift_times replaceHour replaceHourMinute dateAtMidnight
  rw [if_neg h1, if_neg h2]
  by_cases h0 : j = 0
  · rw [if_pos h0, if_pos h0, if_pos (by omega)]
    dsimp only
    rw [if_pos (by omega)]
    dsimp only
    simp only [Except.ok.injEq, Prod.mk.injEq, PyDateTime.mk.injEq]
    constructor <;> omega
  · rw [if_neg h0, if_neg h0, if_pos (by omega)]
    dsimp only
    rw [if_pos (by exact ⟨by omega, by omega⟩)]
    dsimp only
    simp only [Except.ok.injEq, Prod.mk.injEq, PyDateTime.mk.injEq]
    constructor <;> omega

/-- Refinement: within the validity bounds, the code's `_get_shift_times`
computes exactly the spec's slicing rule. -/
theorem get_shift_times_valid (d j : Nat) (ty : String)
    (hday : ty = "day" → j ≤ 7) (hnight : ty = "night" → j ≤ 1) :
    get_shift_times d j ty = .ok (specSliceTimes d j ty) := by
  by_cases h1 : ty = "day"
  · subst h1
    rw [gst_day d j (hday rfl)]
    unfold specSliceTimes
    rw [if_pos rfl]
  · by_cases h2 : ty = "night"
    · subst h2
      rw [gst_night d j (hnight rfl)]
      unfold specSliceTimes
      rw [if_neg h1, if_pos rfl]
    · rw [gst_other d j ty h1 h2]
      unfold specSliceTimes
      rw [if_neg h1, if_neg h2]

/-- A bounded `for` loop whose body always succeeds collects the mapped
values. -/
theorem forNums_ok {α : Type} (f : Nat → Except String α) (g : Nat → α) :
    ∀ (n i : Nat), (∀ j, j < n → f (i + j) = .ok (g (i + j))) →
      forNums f i n = .ok ((List.range n).map (fun j => g (i + j))) := by
  intro n
  induction n with
  | zero => intro i _; rfl
  | succ n ih =>
    intro i h
    rw [forNums]
    rw [show f i = .ok (g i) from by simpa using h 0 (by omega)]
    rw [ih (i + 1) (fun j hj => by
      have hh := h (j + 1) (by omega)
      rwa [show i + (j + 1) = i + 1 + j from by omega] at hh)]
    rw [List.range_succ_eq_map, List.map_cons, List.map_map]
    simp only [Except.ok.injEq, List.cons.injEq]
    refine ⟨by rw [Nat.add_zero], List.map_congr_left (fun a _ => ?_)⟩
    simp only [Function.comp_apply, Nat.succ_eq_add_one]
    rw [show i + (a + 1) = i + 1 + a from by omega]

/-- One day of catalog generation, within the validity bounds. -/
theorem gen_day_times_ok (d spd : Nat) (ty : String)
    (hday : ty = "day" → spd ≤ 8) (hnight : ty = "night" → spd ≤ 2) :
    gen_day_times d spd ty = .ok ((List.range spd).map (fun j => specSliceTimes d j ty)) := by
  unfold gen_day_times
  rw [forNums_ok _ (fun j => specSliceTimes d j ty) spd 0 (fun j hj => by
    rw [Nat.zero_add]
    exact get_shift_times_valid d j ty (fun h => by have := hday h; omega)
      (fun h => by have := hnight h; omega))]
  simp

/-- The whole catalog window, within the validity bounds. -/
theorem genPeriodGo_ok (spd : Nat) (ty : String)
    (hday : ty = "day" → spd ≤ 8) (hnight : ty = "night" → spd ≤ 2) :
    ∀ (n cur : Nat), genPeriodGo spd ty cur n
      = .ok ((List.range n).flatMap (fun di =>
          (List.range spd).map (fun j => specSliceTimes (cur + di) j ty))) := by
  intro n
  induction n with
  | zero => intro cur; rfl
  | succ n ih =>
    intro cur
    rw [genPeriodGo, gen_day_times_ok cur spd ty hday hnight, ih (cur + 1)]
    rw [List.range_succ_eq_map, List.flatMap_cons, List.flatMap_map]
    have hfn : (fun di => (List.range spd).map (fun j => specSliceTimes (cur + 1 + di) j ty))
        = (fun di : Nat => (List.range spd).map (fun j => specSliceTimes (cur + Nat.succ di) j ty)) := by
      funext di
      rw [show cur + 1 + di = cur + Nat.succ di from by omega]
    rw [hfn]
    simp only [Except.ok.injEq, Nat.add_zero]

unseal Rat.add Rat.mul Rat.sub Rat.inv in
/-- Claim C6 (amended): within the hour-validity bounds (any
`shifts_per_day` for `"mixed"`/other types, `≤ 8` for `"day"`, `≤ 2` for
`"night"`), the catalog holds exactly one candidate shift per day of the
inclusive range and per `shift_num`, whose times equal the spec's slicing
rule `specSliceTimes`; in particular a one-day `"mixed"` range with
`shifts_per_day = 2` yields exactly 08:00-16:00 and 16:00-23:59. -/
theorem C6_theorem (s e spd : Nat) (ty : String)
    (hday : ty = "day" → spd ≤ 8) (hnight : ty = "night" → spd ≤ 2) :
    gen_period_times s e spd ty
      = .ok ((List.range (e + 1 - s)).flatMap (fun di =>
          (List.range spd).map (fun j => specSliceTimes (s + di) j ty)))
    ∧ generate_shifts_for_period s e spd ty
      = .ok (((List.range (e + 1 - s)).flatMap (fun di =>
          (List.range spd).map (fun j => specSliceTimes (s + di) j ty))).mapIdx (mkMockShift ty))
    ∧ generate_shifts_for_period 0 0 2 "mixed"
      = .ok [{ id := 0, start? := some ⟨480⟩, end? := some ⟨960⟩, required_staff := 1,
               required_skills := [], duration_hours? := some 8, shift_type := "mixed",
               assigned_staff := [] },
             { id := 1, start? := some ⟨960⟩, end? := some ⟨1439⟩, required_staff := 1,
               required_skills := [], duration_hours? := some (479 / 60), shift_type := "mixed",
               assigned_staff := [] }] := by
  have hp : gen_period_times s e spd ty
      = .ok ((List.range (e + 1 - s)).flatMap (fun di =>
          (List.range spd).map (fun j => specSliceTimes (s + di) j ty))) := by
    rw [gen_period_times, genPeriodGo_ok spd ty hday hnight]
  refine ⟨hp, ?_, by decide⟩
  rw [generate_shifts_for_period, hp]

/-- Witness for C6 at a one-day `"mixed"` window with `shifts_per_day = 2`. -/
theorem C6_witness :
    (("mixed" = "day" → (2 : Nat) ≤ 8) ∧ ("mixed" = "night" → (2 : Nat) ≤ 2))
    ∧ (gen_period_times 0 0 2 "mixed"
        = .ok ((List.range (0 + 1 - 0)).flatMap (fun di =>
            (List.range 2).map (fun j => specSliceTimes (0 + di) j "mixed")))
       ∧ generate_shifts_for_period 0 0 2 "mixed"
        = .ok (((List.range (0 + 1 - 0)).flatMap (fun di =>
            (List.range 2).map (fun j => specSliceTimes (0 + di) j "mixed"))).mapIdx (mkMockShift "mixed"))
       ∧ generate_shifts_for_period 0 0 2 "mixed"
        = .ok [{ id := 0, start? := some ⟨480⟩, end? := some ⟨960⟩, required_staff := 1,
                 required_skills := [], duration_hours? := some 8, shift_type := "mixed",
                 assigned_staff := [] },
               { id := 1, start? := some ⟨960⟩, end? := some ⟨1439⟩, required_staff := 1,
                 required_skills := [], duration_hours? := some (479 / 60), shift_type := "mixed",
                 assigned_staff := [] }]) :=
  ⟨⟨by decide, by decide⟩, C6_theorem 0 0 2 "mixed" (by decide) (by decide)⟩

set_option maxRecDepth 4000 in
/-- Claim C4 (amended): for any unregistered name, `Scheduler` raises an
unknown-strategy `ValueError` whose message appends the Python repr of the
exact registered key list (each registered name occurs in it), while
`ScheduleClient` raises an unknown-strategy `ValueError` naming only the
requested strategy; both leave the staff/shift graph untouched. -/
theorem C4_theorem (ev mi so : StrategyFn) (P : Prefs) (name : String) (σ : SchedState)
    (s e : Nat) (hsch : name ∉ schedulerKeys) (hcl : name ∉ clientKeys) :
    scheduler_generate_schedule ev mi so P name σ s e
      = (.error (.valueError (schedulerUnknownMsg name)), σ)
    ∧ schedulerUnknownMsg name
        = "Unknown strategy: " ++ name ++ ". Available strategies: " ++ pyListRepr schedulerKeys
    ∧ (∀ k ∈ schedulerKeys, k.data <:+: (pyListRepr schedulerKeys).data)
    ∧ client_generate_schedule ev mi P name σ s e
      = (.error (.valueError ("Unknown strategy: " ++ name)), σ) := by
  simp only [schedulerKeys, clientKeys, List.mem_cons, List.not_mem_nil, or_false,
    not_or] at hsch hcl
  refine ⟨?_, rfl, by decide, ?_⟩
  · unfold scheduler_generate_schedule
    rw [if_neg hsch.1, if_neg hsch.2.1, if_neg hsch.2.2.1, if_neg hsch.2.2.2.1,
      if_neg hsch.2.2.2.2]
  · unfold client_generate_schedule
    rw [if_neg hcl.1, if_neg hcl.2.1, if_neg hcl.2.2.1, if_neg hcl.2.2.2]

set_option maxRecDepth 4000 in
/-- Witness for C4 at the unregistered name `"bogus"`. -/
theorem C4_witness :
    "bogus" ∉ schedulerKeys ∧ "bogus" ∉ clientKeys
    ∧ (scheduler_generate_schedule trivialStrategy trivialStrategy trivialStrategy
          (fun _ => none) "bogus" ⟨[], []⟩ 0 0
        = (.error (.valueError (schedulerUnknownMsg "bogus")), ⟨[], []⟩)
       ∧ schedulerUnknownMsg "bogus"
        = "Unknown strategy: " ++ "bogus" ++ ". Available strategies: " ++ pyListRepr schedulerKeys
       ∧ (∀ k ∈ schedulerKeys, k.data <:+: (pyListRepr schedulerKeys).data)
       ∧ client_generate_schedule trivialStrategy trivialStrategy (fun _ => none) "bogus"
          ⟨[], []⟩ 0 0
        = (.error (.valueError ("Unknown strategy: " ++ "bogus")), ⟨[], []⟩)) :=
  ⟨by decide, by decide,
   C4_theorem trivialStrategy trivialStrategy trivialStrategy (fun _ => none) "bogus"
     ⟨[], []⟩ 0 0 (by decide) (by decide)⟩
/-- `_clear_existing_shifts` on a clean session: deletes (and commits) the
window's rows. -/
theorem clear_shifts_closed (schid s e : Nat) (rows : List ShiftRow) :
    clear_existing_shifts schid s e ⟨rows, [], []⟩
      = ((rows.filter (inClearWindow schid s e)).length,
         ⟨rows.filter (fun r => !inClearWindow schid s e r), [], []⟩) := by
  unfold clear_existing_shifts commitDb
  dsimp only
  rw [List.nil_append, List.append_nil]
  have hf : rows.filter (fun r => decide (r ∉ rows.filter (inClearWindow schid s e)))
      = rows.filter (fun r => !inClearWindow schid s e r) := by
    apply List.filter_congr
    intro r hr
    simp [List.mem_filter, hr]
  rw [hf]

/-- `ScheduleClient.generate_schedule` on an unregistered name raises
without touching the state. -/
theorem client_unknown (ev mi : StrategyFn) (P : Prefs) (name : String) (σ : SchedState)
    (s e : Nat) (hname : name ∉ clientKeys) :
    client_generate_schedule ev mi P name σ s e
      = (.error (.valueError ("Unknown strategy: " ++ name)), σ) := by
  simp only [clientKeys, List.mem_cons, List.not_mem_nil, or_false, not_or] at hname
  unfold client_generate_schedule
  rw [if_neg hname.1, if_neg hname.2.1, if_neg hname.2.2.1, if_neg hname.2.2.2]

/-- Claim C3 (amended): an empty staff list makes `auto_populate` raise
`ValueError` to its caller with the persisted state untouched (the other
two input validations behave likewise); a failure inside the `try` (here:
unknown strategy, with a always-valid `"mixed"` catalog) returns a
structured failure outcome — but the deletions performed by
`_clear_existing_shifts` were already committed, so the persisted state
keeps the clearing instead of being rolled back. -/
theorem C3_theorem :
    (∀ (ev mi : StrategyFn) (P : Prefs) (aid schid : Nat) (name : String) (s e : Nat)
       (spd : Int) (ty : String) (db : Db),
      auto_populate ev mi P aid schid name [] s e spd ty db
        = (.error (.valueError "Staff list cannot be empty"), db))
    ∧ (∀ (ev mi : StrategyFn) (P : Prefs) (aid schid : Nat) (name : String)
        (staffL : List Staff) (s e : Nat) (spd : Int) (rows : List ShiftRow),
       staffL ≠ [] → s ≤ e → 0 < spd → name ∉ clientKeys →
       auto_populate ev mi P aid schid name staffL s e spd "mixed" ⟨rows, [], []⟩
         = (.ok (.failure ("Failed to auto-generate schedule: Unknown strategy: " ++ name)),
            ⟨rows.filter (fun r => !inClearWindow schid s e r), [], []⟩)) := by
  constructor
  · intro ev mi P aid schid name s e spd ty db
    rfl
  · intro ev mi P aid schid name staffL s e spd rows hne hse hspd hname
    unfold auto_populate
    rw [if_neg (by simp [hne]), if_neg (by omega), if_neg (by omega)]
    rw [clear_shifts_closed]
    have hcat : generate_shifts_for_period s e spd.toNat "mixed"
        = .ok (((List.range (e + 1 - s)).flatMap (fun di =>
            (List.range spd.toNat).map (fun j => specSliceTimes (s + di) j "mixed"))).mapIdx
              (mkMockShift "mixed")) := by
      rw [generate_shifts_for_period, gen_period_times,
        genPeriodGo_ok spd.toNat "mixed" (fun h => absurd h (by decide))
          (fun h => absurd h (by decide))]
    rw [hcat]
    dsimp only
    rw [client_unknown ev mi P name _ s e hname]
    rfl

unseal Rat.add Rat.mul Rat.sub Rat.inv in
/-- Witness for C3: the raising arm at an empty roster, and the
structured-failure arm at the unregistered name `"bogus"` with one
pre-existing row that stays deleted. -/
theorem C3_witness :
    (auto_populate trivialStrategy trivialStrategy (fun _ => none) 1 9 "whatever"
        [] 0 0 1 "day" ⟨[⟨9, 1, ⟨300⟩, ⟨400⟩⟩], [], []⟩
      = (.error (.valueError "Staff list cannot be empty"), ⟨[⟨9, 1, ⟨300⟩, ⟨400⟩⟩], [], []⟩))
    ∧ ([{ id := 5 }] : List Staff) ≠ [] ∧ (0 : Nat) ≤ 0 ∧ (0 : Int) < 1 ∧ "bogus" ∉ clientKeys
    ∧ (auto_populate trivialStrategy trivialStrategy (fun _ => none) 1 9 "bogus"
        [{ id := 5 }] 0 0 1 "mixed" ⟨[⟨9, 1, ⟨300⟩, ⟨400⟩⟩], [], []⟩
      = (.ok (.failure ("Failed to auto-generate schedule: Unknown strategy: " ++ "bogus")),
         ⟨[⟨9, 1, ⟨300⟩, ⟨400⟩⟩].filter (fun r => !inClearWindow 9 0 0 r), [], []⟩)) :=
  ⟨C3_theorem.1 trivialStrategy trivialStrategy (fun _ => none) 1 9 "whatever" 0 0 1 "day" _,
   by decide, by decide, by decide, by decide,
   C3_theorem.2 trivialStrategy trivialStrategy (fun _ => none) 1 9 "bogus" [{ id := 5 }]
     0 0 1 [⟨9, 1, ⟨300⟩, ⟨400⟩⟩] (by decide) (by decide) (by decide) (by decide)⟩

/-- `_assign_shift` only touches the mutable assignment state, so a reset
absorbs it. -/
theorem reset_assign (σ : SchedState) (pid sid : Nat) :
    reset_assignments (assign_shift σ pid sid) = reset_assignments σ := by
  unfold assign_shift updStaff updShift reset_assignments
  dsimp only
  congr 1
  · rw [List.map_map]
    apply List.map_congr_left
    intro p _
    by_cases h : p.id = pid <;> simp [h]
  · rw [List.map_map]
    apply List.map_congr_left
    intro sh _
    by_cases h : sh.id = sid <;> simp [h]

/-- Resetting is idempotent. -/
theorem reset_reset (σ : SchedState) :
    reset_assignments (reset_assignments σ) = reset_assignments σ := by
  unfold reset_assignments
  dsimp only
  congr 1 <;> rw [List.map_map] <;> exact List.map_congr_left (fun x _ => rfl)

/-- A fold whose steps are absorbed by reset is absorbed by reset. -/
theorem reset_foldl {β : Type} (step : SchedState → β → SchedState)
    (h : ∀ σ b, reset_assignments (step σ b) = reset_assignments σ) :
    ∀ (l : List β) (σ : SchedState),
      reset_assignments (l.foldl step σ) = reset_assignments σ := by
  intro l
  induction l with
  | nil => intro σ; rfl
  | cons x xs ih => intro σ; rw [List.foldl_cons, ih, h]

/-- Pair-state version of `reset_foldl`. -/
theorem reset_foldl_fst {β γ : Type} (step : SchedState × γ → β → SchedState × γ)
    (h : ∀ a b, reset_assignments (step a b).1 = reset_assignments a.1) :
    ∀ (l : List β) (a : SchedState × γ),
      reset_assignments (l.foldl step a).1 = reset_assignments a.1 := by
  intro l
  induction l with
  | nil => intro a; rfl
  | cons x xs ih => intro a; rw [List.foldl_cons, ih, h]

/-- One PreferenceBased shift iteration is absorbed by reset. -/
theorem reset_pb_process (P : Prefs) (σ : SchedState) (sid : Nat) :
    reset_assignments (pb_process_shift P σ sid) = reset_assignments σ := by
  unfold pb_process_shift
  cases h : findShift σ sid with
  | none => rfl
  | some sh =>
    dsimp only
    split
    · rfl
    · exact reset_foldl _ (fun σ2 (c : Nat × Int × ℚ) => reset_assign σ2 c.1 sid) _ σ

/-- `_assign_if_available` is absorbed by reset. -/
theorem reset_dn_assign (P : Prefs) (σ : SchedState) (pid sid : Nat) :
    reset_assignments (dn_assign_if_available P σ pid sid).2 = reset_assignments σ := by
  unfold dn_assign_if_available
  dsimp only
  split
  · exact reset_assign σ pid sid
  · rfl

/-- One DayNight bucket iteration is absorbed by reset. -/
theorem reset_dn_step (P : Prefs) (prim : List Nat) (acc : SchedState × List Nat) (sid : Nat) :
    reset_assignments (dn_shift_step P prim acc sid).1 = reset_assignments acc.1 := by
  unfold dn_shift_step
  cases h : findShift acc.1 sid with
  | none => rfl
  | some sh =>
    dsimp only
    split
    · rfl
    · refine reset_foldl_fst _ (fun a pid => ?_) _ (acc.1, acc.2)
      dsimp only
      split
      · exact reset_dn_assign P a.1 pid sid
      · exact reset_dn_assign P a.1 pid sid

/-- A whole PreferenceBased run is absorbed by reset. -/
theorem reset_pb_run (P : Prefs) (σ : SchedState) :
    reset_assignments (pb_run P σ) = reset_assignments σ := by
  unfold pb_run
  rw [reset_foldl _ (fun τ sid => reset_pb_process P τ sid), reset_reset]

/-- A whole DayNight run is absorbed by reset. -/
theorem reset_dn_run (P : Prefs) (σ : SchedState) :
    reset_assignments (dn_run P σ) = reset_assignments σ := by
  unfold dn_run
  dsimp only
  rw [reset_foldl_fst _ (fun a sid => reset_dn_step P _ a sid),
    reset_foldl_fst _ (fun a sid => reset_dn_step P _ a sid), reset_reset]

/-- Re-running PreferenceBased on its own output state changes nothing:
the run is a function of the reset state, which the first run preserved. -/
theorem pb_run_idem (P : Prefs) (σ : SchedState) :
    pb_run P (pb_run P σ) = pb_run P σ := by
  show (pbShiftOrder (reset_assignments (pb_run P σ)).shifts).foldl (pb_process_shift P)
      (reset_assignments (pb_run P σ)) = pb_run P σ
  rw [reset_pb_run]
  rfl

/-- Re-running DayNight on its own output state changes nothing. -/
theorem dn_run_idem (P : Prefs) (σ : SchedState) :
    dn_run P (dn_run P σ) = dn_run P σ := by
  show (let σ0 := reset_assignments (dn_run P σ);
    let cat := dn_categorize P (σ0.staff.map (·.id));
    let dayB := (σ0.shifts.filter dnIsDayBucket).map (·.id);
    let nightB := (σ0.shifts.filter (fun sh => !dnIsDayBucket sh)).map (·.id);
    let a1 := dayB.foldl (dn_shift_step P cat.1) (σ0, cat.2.2);
    let a2 := nightB.foldl (dn_shift_step P cat.2.1) a1;
    a2.1) = dn_run P σ
  rw [reset_dn_run]
  rfl

/-- Claim C8: for both strategies in the sources, running
`generate_schedule` twice on the same inputs (each run starting with
`_reset_assignments`, with the same preference lookup) returns an
identical `ScheduleResult` and final object graph. -/
theorem C8_theorem (P : Prefs) (σ : SchedState) (s e : Nat) :
    pb_generate_schedule P ((pb_generate_schedule P σ s e).2) s e
      = pb_generate_schedule P σ s e
    ∧ dn_generate_schedule P ((dn_generate_schedule P σ s e).2) s e
      = dn_generate_schedule P σ s e := by
  constructor
  · show pb_generate_schedule P (pb_run P σ) s e = pb_generate_schedule P σ s e
    unfold pb_generate_schedule
    rw [pb_run_idem]
  · show dn_generate_schedule P (dn_run P σ) s e = dn_generate_schedule P σ s e
    unfold dn_generate_schedule
    rw [dn_run_idem]
    have : reset_assignments (dn_run P σ) = reset_assignments σ := reset_dn_run P σ
    rw [this]

/-- Mutating a shift leaves the staff list untouched. -/
theorem staff_updShift (sid : Nat) (f : Shift → Shift) (σ : SchedState) :
    (updShift sid f σ).staff = σ.staff := rfl

/-- An id-preserving staff mutation keeps the id sequence. -/
theorem ids_updStaff (pid : Nat) (f : Staff → Staff) (σ : SchedState)
    (hf : ∀ p, (f p).id = p.id) :
    (updStaff pid f σ).staff.map Staff.id = σ.staff.map Staff.id := by
  unfold updStaff
  dsimp only
  rw [List.map_map]
  apply List.map_congr_left
  intro p _
  by_cases h : p.id = pid <;> simp [h, hf]

/-- `_assign_shift` keeps the staff id sequence. -/
theorem ids_assign (σ : SchedState) (pid sid : Nat) :
    (assign_shift σ pid sid).staff.map Staff.id = σ.staff.map Staff.id := by
  unfold assign_shift
  exact ids_updStaff pid _ _ (fun p => rfl)

/-- With distinct ids, the id-keyed lookup finds exactly the member. -/
theorem find_staff_list (l : List Staff) (p : Staff)
    (hnd : (l.map Staff.id).Nodup) (hp : p ∈ l) :
    l.find? (fun q => q.id == p.id) = some p := by
  induction l with
  | nil => cases hp
  | cons q t ih =>
    rw [List.map_cons, List.nodup_cons] at hnd
    rcases List.mem_cons.mp hp with rfl | hpt
    · simp [List.find?]
    · have hne : q.id ≠ p.id := fun hEq => hnd.1 (hEq ▸ List.mem_map.mpr ⟨p, hpt, rfl⟩)
      rw [List.find?]
      rw [show (q.id == p.id) = false from by simpa using hne]
      exact ih hnd.2 hpt

/-- `findStaff` returns the member itself when ids are distinct. -/
theorem findStaff_mem (σ : SchedState) (p : Staff)
    (hnd : (σ.staff.map Staff.id).Nodup) (hp : p ∈ σ.staff) :
    findStaff σ p.id = some p :=
  find_staff_list σ.staff p hnd hp

/-- Entries of the staff list after `_assign_shift`. -/
theorem mem_assign_staff {σ : SchedState} {pid sid : Nat} {p' : Staff}
    (h : p' ∈ (assign_shift σ pid sid).staff) :
    ∃ p ∈ σ.staff, p' = if p.id = pid then
      { p with assigned_shifts := p.assigned_shifts ++ [sid],
               total_hours := p.total_hours + ((findShift σ sid).map shift_duration).getD 8 }
      else p := by
  unfold assign_shift updStaff at h
  dsimp only at h
  rcases List.mem_map.mp h with ⟨p, hp, hEq⟩
  exact ⟨p, hp, hEq.symm⟩

/-- `_assign_if_available` preserves distinct ids and, because it checks
`current + duration ≤ max` before committing, the per-member cap bound. -/
theorem dn_assign_inv (P : Prefs) (σ : SchedState) (pid sid : Nat)
    (hnd : (σ.staff.map Staff.id).Nodup)
    (hcap : ∀ p ∈ σ.staff, p.total_hours ≤ (prefsOf P p.id).max_hours_per_week) :
    ((dn_assign_if_available P σ pid sid).2.staff.map Staff.id = σ.staff.map Staff.id)
    ∧ ∀ p ∈ (dn_assign_if_available P σ pid sid).2.staff,
        p.total_hours ≤ (prefsOf P p.id).max_hours_per_week := by
  unfold dn_assign_if_available
  dsimp only
  split
  · next hcommit =>
    refine ⟨ids_assign σ pid sid, ?_⟩
    intro p' hp'
    rcases mem_assign_staff hp' with ⟨p, hp, hEq⟩
    by_cases h : p.id = pid
    · rw [hEq, if_pos h]
      dsimp only
      have hfind : findStaff σ pid = some p := h ▸ findStaff_mem σ p hnd hp
      have hcur : totalHoursOf σ pid = p.total_hours := by
        rw [totalHoursOf, hfind]; rfl
      rw [h]
      rw [hcur] at hcommit
      exact hcommit
    · rw [hEq, if_neg h]
      exact hcap p hp
  · exact ⟨rfl, hcap⟩

/-- An invariant of the state component survives a pair-state fold. -/
theorem foldl_inv_fst {β γ : Type} (Inv : SchedState → Prop)
    (step : SchedState × γ → β → SchedState × γ)
    (h : ∀ a b, Inv a.1 → Inv (step a b).1) :
    ∀ (l : List β) (a : SchedState × γ), Inv a.1 → Inv (l.foldl step a).1 := by
  intro l
  induction l with
  | nil => intro a ha; exact ha
  | cons x xs ih => intro a ha; rw [List.foldl_cons]; exact ih _ (h a x ha)

/-- One DayNight bucket iteration preserves the cap bound. -/
theorem dn_step_cap_inv (P : Prefs) (prim : List Nat) (sid : Nat)
    (a : SchedState × List Nat)
    (ha : (a.1.staff.map Staff.id).Nodup
      ∧ ∀ p ∈ a.1.staff, p.total_hours ≤ (prefsOf P p.id).max_hours_per_week) :
    ((dn_shift_step P prim a sid).1.staff.map Staff.id).Nodup
    ∧ ∀ p ∈ (dn_shift_step P prim a sid).1.staff,
        p.total_hours ≤ (prefsOf P p.id).max_hours_per_week := by
  unfold dn_shift_step
  cases h : findShift a.1 sid with
  | none => exact ha
  | some sh =>
    dsimp only
    split
    · exact ha
    · refine foldl_inv_fst
        (fun τ => (τ.staff.map Staff.id).Nodup
          ∧ ∀ p ∈ τ.staff, p.total_hours ≤ (prefsOf P p.id).max_hours_per_week)
        _ (fun a2 pid ha2 => ?_) _ (a.1, a.2) ha
      dsimp only
      have hstep := dn_assign_inv P a2.1 pid sid ha2.1 ha2.2
      split
      · exact ⟨hstep.1 ▸ ha2.1, hstep.2⟩
      · exact ⟨hstep.1 ▸ ha2.1, hstep.2⟩

/-- Claim C1 (amended): after `DayNightDistributeStrategy.generate_schedule`
on a roster with distinct ids and nonnegative caps, every staff member
ends with `total_hours` within their `max_hours_per_week` — each
commitment goes through `_assign_if_available`, which checks the budget at
the moment of assignment.  (PreferenceBasedStrategy violates this; see the
counterexample.) -/
theorem C1_theorem (P : Prefs) (σ : SchedState) (s e : Nat)
    (hnd : (σ.staff.map Staff.id).Nodup)
    (hcap : ∀ i, 0 ≤ (prefsOf P i).max_hours_per_week) :
    ∀ p ∈ (dn_generate_schedule P σ s e).2.staff,
      p.total_hours ≤ (prefsOf P p.id).max_hours_per_week := by
  show ∀ p ∈ (dn_run P σ).staff, _
  have hreset_ids : ((reset_assignments σ).staff.map Staff.id) = σ.staff.map Staff.id := by
    unfold reset_assignments
    dsimp only
    rw [List.map_map]
    exact List.map_congr_left (fun p _ => rfl)
  have h0 : ((reset_assignments σ).staff.map Staff.id).Nodup
      ∧ ∀ p ∈ (reset_assignments σ).staff,
          p.total_hours ≤ (prefsOf P p.id).max_hours_per_week := by
    refine ⟨hreset_ids ▸ hnd, ?_⟩
    intro p hp
    rcases List.mem_map.mp hp with ⟨q, _, rfl⟩
    exact hcap q.id
  unfold dn_run
  dsimp only
  have h1 := foldl_inv_fst
    (fun τ => (τ.staff.map Staff.id).Nodup
      ∧ ∀ p ∈ τ.staff, p.total_hours ≤ (prefsOf P p.id).max_hours_per_week)
    (dn_shift_step P (dn_categorize P ((reset_assignments σ).staff.map (fun x => x.id))).1)
    (fun a sid => dn_step_cap_inv P _ sid a)
    (((reset_assignments σ).shifts.filter dnIsDayBucket).map (fun x => x.id))
    (reset_assignments σ,
      (dn_categorize P ((reset_assignments σ).staff.map (fun x => x.id))).2.2)
    h0
  have h2 := foldl_inv_fst
    (fun τ => (τ.staff.map Staff.id).Nodup
      ∧ ∀ p ∈ τ.staff, p.total_hours ≤ (prefsOf P p.id).max_hours_per_week)
    (dn_shift_step P (dn_categorize P ((reset_assignments σ).staff.map (fun x => x.id))).2.1)
    (fun a sid => dn_step_cap_inv P _ sid a)
    (((reset_assignments σ).shifts.filter (fun sh => !dnIsDayBucket sh)).map (fun x => x.id))
    _ h1
  exact h2.2

/-- Witness for C1 at a two-member roster with default caps and one day
shift. -/
theorem C1_witness :
    (([{ id := 0 }, { id := 1 }] : List Staff).map Staff.id).Nodup
    ∧ (∀ i, 0 ≤ (prefsOf (fun _ => none) i).max_hours_per_week)
    ∧ (∀ p ∈ (dn_generate_schedule (fun _ => none)
        ⟨[{ id := 0 }, { id := 1 }], [{ id := 0, start? := some ⟨480⟩, end? := some ⟨960⟩ }]⟩
        0 0).2.staff,
        p.total_hours ≤ (prefsOf (fun _ => none) p.id).max_hours_per_week) :=
  ⟨by decide, fun i => by show (0 : ℚ) ≤ 40; norm_num,
   C1_theorem (fun _ => none)
     ⟨[{ id := 0 }, { id := 1 }], [{ id := 0, start? := some ⟨480⟩, end? := some ⟨960⟩ }]⟩
     0 0 (by decide) (fun i => by show (0 : ℚ) ≤ 40; norm_num)⟩

/-- A fold preserves an invariant its steps preserve. -/
theorem foldl_inv {α β : Type} (Inv : α → Prop) (step : α → β → α)
    (h : ∀ a b, Inv a → Inv (step a b)) :
    ∀ (l : List β) (a : α), Inv a → Inv (l.foldl step a) := by
  intro l
  induction l with
  | nil => intro a ha; exact ha
  | cons x xs ih => intro a ha; rw [List.foldl_cons]; exact ih _ (h a x ha)

/-- Stable insertion permutes. -/
theorem insertLe_perm {α : Type} (le : α → α → Bool) (x : α) :
    ∀ l : List α, (insertLe le x l).Perm (x :: l) := by
  intro l
  induction l with
  | nil => exact List.Perm.refl _
  | cons y ys ih =>
    rw [insertLe]
    split
    · exact List.Perm.refl _
    · exact (ih.cons y).trans (List.Perm.swap x y ys)

/-- The stable sort is a permutation. -/
theorem sortLe_perm {α : Type} (le : α → α → Bool) :
    ∀ l : List α, (sortLe le l).Perm l := by
  intro l
  induction l with
  | nil => exact List.Perm.refl _
  | cons x xs ih =>
    show (insertLe le x (sortLe le xs)).Perm (x :: xs)
    exact (insertLe_perm le x _).trans (ih.cons x)

/-- Reset keeps the staff id sequence. -/
theorem reset_ids (σ : SchedState) :
    (reset_assignments σ).staff.map (fun x => x.id) = σ.staff.map (fun x => x.id) := by
  unfold reset_assignments
  dsimp only
  rw [List.map_map]
  exact List.map_congr_left (fun p _ => rfl)

/-- A day-preferring id is not neutral (the categorization conditions are
mutually exclusive). -/
theorem dn_cat_day_not_neutral (P : Prefs) (ids : List Nat) :
    ∀ x ∈ (dn_categorize P ids).1, x ∉ (dn_categorize P ids).2.2 := by
  intro x hx hx2
  unfold dn_categorize at hx hx2
  rw [List.mem_filter] at hx hx2
  simp only [Bool.and_eq_true, Bool.not_eq_eq_eq_not, Bool.not_true] at hx hx2
  rcases hx with ⟨_, hday, hnight⟩
  rcases hx2 with ⟨_, hne, _⟩
  simp [hday, hnight] at hne

/-- A night-preferring id is not neutral. -/
theorem dn_cat_night_not_neutral (P : Prefs) (ids : List Nat) :
    ∀ x ∈ (dn_categorize P ids).2.1, x ∉ (dn_categorize P ids).2.2 := by
  intro x hx hx2
  unfold dn_categorize at hx hx2
  rw [List.mem_filter] at hx hx2
  simp only [Bool.and_eq_true, Bool.not_eq_eq_eq_not, Bool.not_true] at hx hx2
  rcases hx with ⟨_, hnight, hday⟩
  rcases hx2 with ⟨_, _, hne⟩
  simp [hday, hnight] at hne

/-- `_assign_if_available` either commits through `_assign_shift` or
returns the state unchanged. -/
theorem dn_assign_cases (P : Prefs) (σ : SchedState) (pid sid : Nat) :
    dn_assign_if_available P σ pid sid = (true, assign_shift σ pid sid)
    ∨ dn_assign_if_available P σ pid sid = (false, σ) := by
  unfold dn_assign_if_available
  dsimp only
  split
  · exact Or.inl rfl
  · exact Or.inr rfl

/-- The candidate-commitment loop of one shift preserves the neutral-pool
invariant, provided the processed candidates are distinct and every
initially-neutral one among them is still pooled. -/
theorem dn_inner_neutral (P : Prefs) (sid : Nat) (u0 : List Nat) :
    ∀ (picked : List Nat) (a : SchedState × List Nat),
      picked.Nodup →
      (∀ q ∈ picked, q ∈ u0 → q ∈ a.2) →
      NeutralInv u0 a →
      NeutralInv u0 (picked.foldl (fun acc2 pid =>
        let r := dn_assign_if_available P acc2.1 pid sid
        if r.1 then (r.2, acc2.2.erase pid) else (r.2, acc2.2)) a) := by
  intro picked
  induction picked with
  | nil => intro a _ _ hK; exact hK
  | cons pid rest ih =>
    intro a hnd hmem hK
    rw [List.foldl_cons]
    rcases List.nodup_cons.mp hnd with ⟨hpid_rest, hnd_rest⟩
    rcases dn_assign_cases P a.1 pid sid with heq | heq
    · -- committed: the state gains the assignment, the pool loses pid
      have hstep : (let r := dn_assign_if_available P a.1 pid sid
          if r.1 then (r.2, a.2.erase pid) else (r.2, a.2))
          = (assign_shift a.1 pid sid, a.2.erase pid) := by
        simp [heq]
      rw [hstep]
      refine ih _ hnd_rest ?_ ?_
      · intro q hq hqu
        have hqne : q ≠ pid := fun hEq => hpid_rest (hEq ▸ hq)
        exact (List.mem_erase_of_ne hqne).mpr
          (hmem q (List.mem_cons_of_mem _ hq) hqu)
      · rcases hK with ⟨hKnd, hKsub, hKpool, hKmain⟩
        refine ⟨?_, ?_, ?_, ?_⟩
        · show ((assign_shift a.1 pid sid).staff.map Staff.id).Nodup
          rw [ids_assign]; exact hKnd
        · exact fun x hx => hKsub (List.erase_subset _ _ hx)
        · exact hKpool.erase pid
        · intro p' hp' hpu0
          rcases mem_assign_staff hp' with ⟨p, hp, hEq⟩
          by_cases hid : p.id = pid
          · rw [hEq, if_pos hid]
            rw [hEq, if_pos hid] at hpu0
            dsimp only at hpu0 ⊢
            have hpidu0 : pid ∈ u0 := hid ▸ hpu0
            have hpida2 : pid ∈ a.2 := hmem pid (List.mem_cons_self _ _) hpidu0
            rcases hKmain p hp (hid ▸ hpidu0) with ⟨_, hemp⟩ | ⟨hout, _⟩
            · refine Or.inr ⟨?_, ?_⟩
              · rw [hid]; exact hKpool.not_mem_erase
              · rw [hemp]; simp
            · exact absurd (hid ▸ hpida2) hout
          · rw [hEq, if_neg hid]
            rw [hEq, if_neg hid] at hpu0
            rcases hKmain p hp hpu0 with ⟨hin, hemp⟩ | ⟨hout, hlen⟩
            · exact Or.inl ⟨(List.mem_erase_of_ne hid).mpr hin, hemp⟩
            · exact Or.inr ⟨fun hinE => hout (List.erase_subset _ _ hinE), hlen⟩
    · -- not committed: nothing changes
      have hstep : (let r := dn_assign_if_available P a.1 pid sid
          if r.1 then (r.2, a.2.erase pid) else (r.2, a.2)) = (a.1, a.2) := by
        simp [heq]
      rw [hstep]
      exact ih _ hnd_rest (fun q hq => hmem q (List.mem_cons_of_mem _ hq)) hK

/-- One bucket iteration preserves the neutral-pool invariant when the
primary pool is disjoint from the initially-neutral ids: its candidate
slice is drawn from `primary + neutral`, is duplicate-free, and each
committed neutral candidate is removed from the pool. -/
theorem dn_step_neutral (P : Prefs) (prim u0 : List Nat) (sid : Nat)
    (hdisj : ∀ x ∈ prim, x ∉ u0) (hprimnd : prim.Nodup)
    (a : SchedState × List Nat) (hK : NeutralInv u0 a) :
    NeutralInv u0 (dn_shift_step P prim a sid) := by
  unfold dn_shift_step
  cases hfind : findShift a.1 sid with
  | none => exact hK
  | some sh =>
    dsimp only
    split
    · exact hK
    · have hnd_pu : (prim ++ a.2).Nodup := List.nodup_append.mpr
        ⟨hprimnd, hK.2.2.1, fun x hx hxa => hdisj x hx (hK.2.1 hxa)⟩
      have hcands_nd := hnd_pu.filter (fun pid => dn_can_work_shift P pid sh)
      have hsort := sortLe_perm
        (fun b c => decide (totalHoursOf a.1 b ≤ totalHoursOf a.1 c))
        ((prim ++ a.2).filter (fun pid => dn_can_work_shift P pid sh))
      have hsorted_nd := hsort.nodup_iff.mpr hcands_nd
      have hpicked_nd := (List.take_sublist
        ((sh.required_staff : Int) - (sh.assigned_staff.length : Int)).toNat
        (sortLe (fun b c => decide (totalHoursOf a.1 b ≤ totalHoursOf a.1 c))
          ((prim ++ a.2).filter (fun pid => dn_can_work_shift P pid sh)))).nodup hsorted_nd
      refine dn_inner_neutral P sid u0 _ (a.1, a.2) hpicked_nd ?_ hK
      intro q hq hqu
      have hq2 : q ∈ prim ++ a.2 :=
        List.mem_of_mem_filter (hsort.mem_iff.mp ((List.take_sublist
          ((sh.required_staff : Int) - (sh.assigned_staff.length : Int)).toNat
          (sortLe (fun b c => decide (totalHoursOf a.1 b ≤ totalHoursOf a.1 c))
            ((prim ++ a.2).filter (fun pid => dn_can_work_shift P pid sh)))).subset hq))
      rcases List.mem_append.mp hq2 with hqp | hqa
      · exact absurd hqu (hdisj q hqp)
      · exact hqa


/-- Both bucket passes of `DayNightDistributeStrategy` preserve the
neutral-pool invariant. -/
theorem dn_two_passes (P : Prefs) (ids db nb : List Nat) (hnd : ids.Nodup) :
    ∀ a, NeutralInv (dn_categorize P ids).2.2 a →
      NeutralInv (dn_categorize P ids).2.2
        (nb.foldl (dn_shift_step P (dn_categorize P ids).2.1)
          (db.foldl (dn_shift_step P (dn_categorize P ids).1) a)) := by
  intro a ha
  have hday_nd : (dn_categorize P ids).1.Nodup := by
    unfold dn_categorize; exact hnd.filter _
  have hnight_nd : (dn_categorize P ids).2.1.Nodup := by
    unfold dn_categorize; exact hnd.filter _
  exact foldl_inv (NeutralInv (dn_categorize P ids).2.2)
    (dn_shift_step P (dn_categorize P ids).2.1)
    (fun b sid hb => dn_step_neutral P _ _ sid (dn_cat_night_not_neutral P ids) hnight_nd b hb)
    nb _
    (foldl_inv (NeutralInv (dn_categorize P ids).2.2)
      (dn_shift_step P (dn_categorize P ids).1)
      (fun b sid hb => dn_step_neutral P _ _ sid (dn_cat_day_not_neutral P ids) hday_nd b hb)
      db a ha)

set_option maxHeartbeats 1000000 in
/-- Claim C9: in a single `DayNightDistributeStrategy.generate_schedule`
run over a roster with distinct ids, every staff member categorized as
neutral ends with at most one assignment — their first committed
assignment removes them from the neutral pool, and no later candidate
list contains them. -/
theorem C9_theorem (P : Prefs) (σ : SchedState) (s e : Nat)
    (hnd : (σ.staff.map (fun x => x.id)).Nodup) :
    ∀ p ∈ (dn_generate_schedule P σ s e).2.staff,
      p.id ∈ (dn_categorize P (σ.staff.map (fun x => x.id))).2.2 →
      p.assigned_shifts.length ≤ 1 := by
  have hproj : (dn_generate_schedule P σ s e).2 = dn_run P σ := rfl
  rw [hproj]
  have hids := reset_ids σ
  have hcat : dn_categorize P ((reset_assignments σ).staff.map (fun x => x.id))
      = dn_categorize P (σ.staff.map (fun x => x.id)) := by rw [hids]
  have hnd0 : ((reset_assignments σ).staff.map (fun x => x.id)).Nodup := by
    rw [hids]; exact hnd
  have hneutral_nd : (dn_categorize P ((reset_assignments σ).staff.map (fun x => x.id))).2.2.Nodup := by
    unfold dn_categorize
    exact hnd0.filter _
  have hK0 : NeutralInv (dn_categorize P ((reset_assignments σ).staff.map (fun x => x.id))).2.2
      (reset_assignments σ, (dn_categorize P ((reset_assignments σ).staff.map (fun x => x.id))).2.2) := by
    refine ⟨?_, fun x hx => hx, hneutral_nd, ?_⟩
    · show ((reset_assignments σ).staff.map Staff.id).Nodup
      exact hnd0
    · intro p hp hpu
      unfold reset_assignments at hp
      rcases List.mem_map.mp hp with ⟨q, _, rfl⟩
      exact Or.inl ⟨hpu, rfl⟩
  have h2 := dn_two_passes P ((reset_assignments σ).staff.map (fun x => x.id))
    (((reset_assignments σ).shifts.filter dnIsDayBucket).map (fun x => x.id))
    (((reset_assignments σ).shifts.filter (fun sh => !dnIsDayBucket sh)).map (fun x => x.id))
    hnd0 _ hK0
  unfold dn_run
  dsimp only
  intro p hp hmem
  rw [← hcat] at hmem
  rcases h2.2.2.2 p hp hmem with ⟨_, hemp⟩ | ⟨_, hlen⟩
  · rw [hemp]; simp
  · exact hlen

unseal Rat.add Rat.mul Rat.sub Rat.inv in
/-- Witness for C9: one neutral staff member offered two eligible shifts
receives exactly one. -/
theorem C9_witness :
    (([{ id := 0 }] : List Staff).map (fun x => x.id)).Nodup
    ∧ (∀ p ∈ (dn_generate_schedule (fun _ => none)
        ⟨[{ id := 0 }], [{ id := 0, start? := some ⟨480⟩, end? := some ⟨960⟩ },
          { id := 1, start? := some ⟨1920⟩, end? := some ⟨2400⟩ }]⟩ 0 1).2.staff,
        p.id ∈ (dn_categorize (fun _ => none)
          (([{ id := 0 }] : List Staff).map (fun x => x.id))).2.2 →
        p.assigned_shifts.length ≤ 1)
    ∧ (dn_generate_schedule (fun _ => none)
        ⟨[{ id := 0 }], [{ id := 0, start? := some ⟨480⟩, end? := some ⟨960⟩ },
          { id := 1, start? := some ⟨1920⟩, end? := some ⟨2400⟩ }]⟩ 0 1).2.staff
      = [{ id := 0, total_hours := 8, assigned_shifts := [0] }] :=
  ⟨by decide,
   C9_theorem (fun _ => none)
     ⟨[{ id := 0 }], [{ id := 0, start? := some ⟨480⟩, end? := some ⟨960⟩ },
       { id := 1, start? := some ⟨1920⟩, end? := some ⟨2400⟩ }]⟩ 0 1 (by decide),
   by decide⟩
